import Mathlib

/-!
Verification of the conversation-scoped research-report assembly pipeline of the
NYC landmarks research agent.

The Python source is embedded shallowly:

* `datetime` timestamps become `Int` seconds; each operation that calls
  `datetime.now()` receives the current time `now : Int` explicitly.
* Python dicts become association lists (`dictGet`/`dictSet`/`dictDel`); the
  insertion-ordered, first-binding-wins behaviour of `dict` is modelled exactly.
* `float` relevance scores become rationals (`ℚ`): every operation under study
  only compares scores, never does arithmetic on them.
* Fallible calls return sum types; raised exceptions become explicit error
  constructors.
-/

/-- JSON-like mapping with optional string values, for loosely-typed metadata. -/
abbrev Meta := List (String × Option String)

/-- Association-list lookup modelling Python dict access (first binding wins). -/
def dictGet {α : Type} (k : String) : List (String × α) → Option α
  | [] => none
  | (k', v) :: rest => if k' = k then some v else dictGet k rest

/-- Association-list update modelling Python dict assignment: replaces the first
binding of the key in place, or appends a new binding at the end. -/
def dictSet {α : Type} (k : String) (v : α) : List (String × α) → List (String × α)
  | [] => [(k, v)]
  | (k', v') :: rest => if k' = k then (k, v) :: rest else (k', v') :: dictSet k v rest

/-- Association-list deletion modelling Python `del d[k]`. -/
def dictDel {α : Type} (k : String) : List (String × α) → List (String × α)
  | [] => []
  | (k', v') :: rest => if k' = k then rest else (k', v') :: dictDel k rest

/-- The keys of an association list are pairwise distinct: the invariant every
state reachable through a Python `dict` satisfies. -/
def keysNodup {α : Type} (l : List (String × α)) : Prop :=
  (l.map Prod.fst).Nodup

instance {α : Type} (l : List (String × α)) : Decidable (keysNodup l) := by
  unfold keysNodup; infer_instance

/-! ### Data model (src/models/research_models.py, src/models/api_models.py) -/

/-- `SourcePassage` from src/models/research_models.py. -/
structure SourcePassage where
  text : String
  source_id : String
  source_title : Option String
  page_number : Option Int
  chunk_id : Option String
  relevance_score : ℚ
  landmark_id : Option String
  metadata : Meta
deriving DecidableEq

/-- `SourceDocument` from src/models/api_models.py. -/
structure SourceDocument where
  source_id : String
  source_type : String
  title : Option String
  content : String
  page : Option Int
  relevance_score : Option ℚ
  metadata : Meta
deriving DecidableEq

/-- `MemoryEntry` from src/models/research_models.py.  `sources_used` is a list
of JSON-like dumps of `SourceDocument`s; the `.dict()` serialization is modelled
as the document itself. -/
structure MemoryEntry where
  conversation_id : String
  timestamp : Int
  query : String
  response : String
  landmark_ids : List String
  landmark_names : List String
  sources_used : List SourceDocument
deriving DecidableEq

/-- `Conversation` from src/models/research_models.py. -/
structure Conversation where
  id : String
  created_at : Int
  updated_at : Int
  entries : List MemoryEntry
  landmark_focus : Option String
  metadata : Meta
deriving DecidableEq

/-! ### Memory Store (src/services/memory_service.py) -/

/-- The mutable state of `MemoryService`. -/
structure MemoryService where
  conversations : List (String × Conversation)
  ttl_seconds : Int
  memory_enabled : Bool
deriving DecidableEq

/-- A fresh conversation as built by `Conversation(id=conversation_id,
landmark_focus=None)` with the pydantic default factories. -/
def newConversation (cid : String) (now : Int) : Conversation :=
  { id := cid, created_at := now, updated_at := now, entries := [],
    landmark_focus := none, metadata := [] }

/-- `MemoryService._cleanup_expired`: removes every conversation whose age
`now - updated_at` strictly exceeds the TTL.  A no-op when memory is disabled. -/
def cleanup_expired (now : Int) (s : MemoryService) : MemoryService :=
  if s.memory_enabled then
    { s with conversations :=
        s.conversations.filter (fun kv => !decide (now - kv.2.updated_at > s.ttl_seconds)) }
  else s

/-- Python truthiness of the `Optional[str]` field `landmark_focus`:
`not focus` is true when the focus is `None` or the empty string. -/
def focusFalsy : Option String → Bool
  | none => true
  | some f => f = ""

/-- The mutation `add_entry` performs on the (possibly freshly created) target
conversation: append the entry, bump `updated_at`, and set `landmark_focus` to
the first landmark id when `landmark_ids` is truthy and the focus is falsy. -/
def add_entry_conv (now : Int) (conversation_id query response : String)
    (landmark_ids landmark_names : List String) (sources_used : List SourceDocument)
    (c0 : Conversation) : Conversation :=
  let entry : MemoryEntry :=
    { conversation_id := conversation_id, timestamp := now, query := query,
      response := response, landmark_ids := landmark_ids,
      landmark_names := landmark_names, sources_used := sources_used }
  let c1 := { c0 with entries := c0.entries ++ [entry], updated_at := now }
  -- `if landmark_ids and not ...landmark_focus:` (Python truthiness)
  match landmark_ids, focusFalsy c1.landmark_focus with
  | l :: _, true => { c1 with landmark_focus := some l }
  | _, _ => c1

/-- `MemoryService.add_entry`.  The Python defaults `landmark_ids or []` etc.
are taken by passing explicit (possibly empty) lists.  An unknown id silently
gets a new empty conversation created under it. -/
def add_entry (now : Int) (conversation_id query response : String)
    (landmark_ids landmark_names : List String) (sources_used : List SourceDocument)
    (s : MemoryService) : MemoryService × Bool :=
  if s.memory_enabled then
    let s1 := cleanup_expired now s
    let c0 := (dictGet conversation_id s1.conversations).getD
      (newConversation conversation_id now)
    let c2 := add_entry_conv now conversation_id query response landmark_ids
      landmark_names sources_used c0
    ({ s1 with conversations := dictSet conversation_id c2 s1.conversations }, true)
  else (s, true)

/-- `MemoryService.get_conversation`. -/
def get_conversation (now : Int) (conversation_id : String) (s : MemoryService) :
    MemoryService × Option Conversation :=
  if s.memory_enabled then
    let s1 := cleanup_expired now s
    (s1, dictGet conversation_id s1.conversations)
  else (s, none)

/-- `MemoryService.get_conversation_history`: the (query, response) projection. -/
def get_conversation_history (now : Int) (conversation_id : String) (s : MemoryService) :
    MemoryService × List (String × String) :=
  if s.memory_enabled then
    let s1 := cleanup_expired now s
    match dictGet conversation_id s1.conversations with
    | none => (s1, [])
    | some c => (s1, c.entries.map (fun e => (e.query, e.response)))
  else (s, [])

/-- `MemoryService.delete_conversation`.  Note: the source does NOT call
`_cleanup_expired` here. -/
def delete_conversation (conversation_id : String) (s : MemoryService) :
    MemoryService × Bool :=
  if s.memory_enabled then
    match dictGet conversation_id s.conversations with
    | none => (s, false)
    | some _ => ({ s with conversations := dictDel conversation_id s.conversations }, true)
  else (s, true)

/-- `MemoryService.create_conversation`; the fresh uuid is passed in. -/
def create_conversation (freshId : String) (now : Int) (s : MemoryService) :
    MemoryService × String :=
  if s.memory_enabled then
    ({ s with conversations := dictSet freshId (newConversation freshId now) s.conversations },
     freshId)
  else (s, freshId)

/-- The four read/mutate Memory Store calls that consult the store. -/
inductive StoreOp where
  | addEntry (conversation_id query response : String)
      (landmark_ids landmark_names : List String) (sources_used : List SourceDocument)
  | getConversation (conversation_id : String)
  | getHistory (conversation_id : String)
  | deleteConversation (conversation_id : String)

/-- State effect of a store operation. -/
def runStoreOp (op : StoreOp) (now : Int) (s : MemoryService) : MemoryService :=
  match op with
  | .addEntry cid q r lids lnames srcs => (add_entry now cid q r lids lnames srcs s).1
  | .getConversation cid => (get_conversation now cid s).1
  | .getHistory cid => (get_conversation_history now cid s).1
  | .deleteConversation cid => (delete_conversation cid s).1

/-- Which operations run the expiry sweep first (in the source, all but
`delete_conversation`). -/
def StoreOp.runsSweep : StoreOp → Bool
  | .deleteConversation _ => false
  | _ => true

/-- The conversation id an `addEntry` operation targets, if any. -/
def StoreOp.addTarget : StoreOp → Option String
  | .addEntry cid _ _ _ _ _ => some cid
  | _ => none

/-! ### Association-list lemmas -/

theorem dictGet_dictSet_self {α : Type} (k : String) (v : α) (l : List (String × α)) :
    dictGet k (dictSet k v l) = some v := by
  induction l with
  | nil => simp [dictGet, dictSet]
  | cons kv rest ih =>
    obtain ⟨k', v'⟩ := kv
    by_cases h : k' = k <;> simp [dictGet, dictSet, h, ih]

theorem dictGet_dictSet_ne {α : Type} {k k' : String} (v : α) (l : List (String × α))
    (h : k' ≠ k) : dictGet k' (dictSet k v l) = dictGet k' l := by
  have hk : ¬ k = k' := fun hh => h hh.symm
  induction l with
  | nil => simp [dictGet, dictSet, hk]
  | cons kv rest ih =>
    obtain ⟨k'', v''⟩ := kv
    by_cases h2 : k'' = k
    · subst h2
      simp [dictGet, dictSet, hk]
    · simp [dictGet, dictSet, h2, ih]

theorem dictGet_filter_none {α : Type} (k : String) (p : String × α → Bool)
    {l : List (String × α)} (h : dictGet k l = none) :
    dictGet k (l.filter p) = none := by
  induction l with
  | nil => simp [dictGet]
  | cons kv rest ih =>
    obtain ⟨k', v'⟩ := kv
    by_cases hk : k' = k
    · simp [dictGet, hk] at h
    · simp only [dictGet, if_neg hk] at h
      by_cases hp : p (k', v') <;> simp [List.filter, hp, dictGet, hk, ih h]

theorem dictGet_filter_of_pos {α : Type} {k : String} {p : String × α → Bool}
    {l : List (String × α)} {v : α} (h : dictGet k l = some v) (hp : p (k, v) = true) :
    dictGet k (l.filter p) = some v := by
  induction l with
  | nil => simp [dictGet] at h
  | cons kv rest ih =>
    obtain ⟨k', v'⟩ := kv
    by_cases hk : k' = k
    · subst hk
      simp only [dictGet, if_pos rfl] at h
      cases h
      simp [List.filter, hp, dictGet]
    · simp only [dictGet, if_neg hk] at h
      by_cases hq : p (k', v') <;> simp [List.filter, hq, dictGet, hk, ih h]

theorem dictGet_mem_keys {α : Type} {k : String} {l : List (String × α)} {v : α}
    (h : dictGet k l = some v) : k ∈ l.map Prod.fst := by
  induction l with
  | nil => simp [dictGet] at h
  | cons kv rest ih =>
    obtain ⟨k', v'⟩ := kv
    by_cases hk : k' = k
    · simp [hk]
    · simp only [dictGet, if_neg hk] at h
      simp [ih h]

theorem dictGet_filter_of_neg {α : Type} {k : String} {p : String × α → Bool}
    {l : List (String × α)} {v : α} (h : dictGet k l = some v) (hp : p (k, v) = false)
    (hnd : keysNodup l) : dictGet k (l.filter p) = none := by
  induction l with
  | nil => simp [dictGet] at h
  | cons kv rest ih =>
    obtain ⟨k', v'⟩ := kv
    unfold keysNodup at hnd
    simp only [List.map_cons, List.nodup_cons] at hnd
    by_cases hk : k' = k
    · subst hk
      simp only [dictGet, if_pos rfl] at h
      cases h
      simp only [List.filter, hp]
      -- the unique binding of k is dropped; no other binding of k exists
      have : dictGet k' rest = none := by
        cases hrest : dictGet k' rest with
        | none => rfl
        | some w => exact absurd (dictGet_mem_keys hrest) hnd.1
      exact dictGet_filter_none _ _ this
    · simp only [dictGet, if_neg hk] at h
      have ihr := ih h hnd.2
      by_cases hq : p (k', v') <;> simp [List.filter, hq, dictGet, hk, ihr]

/-! ### Field lemmas for the add_entry conversation update -/

theorem add_entry_conv_id (now : Int) (cid q r : String) (lids lnames : List String)
    (srcs : List SourceDocument) (c0 : Conversation) :
    (add_entry_conv now cid q r lids lnames srcs c0).id = c0.id := by
  unfold add_entry_conv
  cases lids with
  | nil => rfl
  | cons l ls => cases hf : focusFalsy c0.landmark_focus <;> simp [hf]

theorem add_entry_conv_updated_at (now : Int) (cid q r : String) (lids lnames : List String)
    (srcs : List SourceDocument) (c0 : Conversation) :
    (add_entry_conv now cid q r lids lnames srcs c0).updated_at = now := by
  unfold add_entry_conv
  cases lids with
  | nil => rfl
  | cons l ls => cases hf : focusFalsy c0.landmark_focus <;> simp [hf]

theorem add_entry_conv_entries (now : Int) (cid q r : String) (lids lnames : List String)
    (srcs : List SourceDocument) (c0 : Conversation) :
    (add_entry_conv now cid q r lids lnames srcs c0).entries =
      c0.entries ++ [{ conversation_id := cid, timestamp := now, query := q, response := r,
                       landmark_ids := lids, landmark_names := lnames,
                       sources_used := srcs }] := by
  unfold add_entry_conv
  cases lids with
  | nil => rfl
  | cons l ls => cases hf : focusFalsy c0.landmark_focus <;> simp [hf]

theorem add_entry_conv_focus_stable (now : Int) (cid q r : String)
    (lids lnames : List String) (srcs : List SourceDocument) (c0 : Conversation)
    (h : focusFalsy c0.landmark_focus = false) :
    (add_entry_conv now cid q r lids lnames srcs c0).landmark_focus =
      c0.landmark_focus := by
  unfold add_entry_conv
  cases lids with
  | nil => rfl
  | cons l ls => simp [h]

theorem add_entry_conv_focus_set (now : Int) (cid q r : String) (l : String)
    (rest lnames : List String) (srcs : List SourceDocument) (c0 : Conversation)
    (h : focusFalsy c0.landmark_focus = true) :
    (add_entry_conv now cid q r (l :: rest) lnames srcs c0).landmark_focus = some l := by
  unfold add_entry_conv
  simp [h]

theorem add_entry_conv_focus_nil (now : Int) (cid q r : String)
    (lnames : List String) (srcs : List SourceDocument) (c0 : Conversation) :
    (add_entry_conv now cid q r [] lnames srcs c0).landmark_focus =
      c0.landmark_focus := by
  unfold add_entry_conv
  rfl

/-! ### C7 / C8: add_entry and delete_conversation behaviour -/

/-- C7: `add_entry` never fails: it returns true in every case, and on an
unknown conversation id (with memory enabled) it creates a fresh conversation
under exactly that id, appends the entry to it and sets `updated_at` to now. -/
theorem C7_theorem (now : Int) (cid q r : String) (lids lnames : List String)
    (srcs : List SourceDocument) (s : MemoryService) :
    ((add_entry now cid q r lids lnames srcs s).2 = true) ∧
    (s.memory_enabled = true → dictGet cid s.conversations = none →
      ∃ c', dictGet cid ((add_entry now cid q r lids lnames srcs s).1).conversations = some c' ∧
        c'.id = cid ∧ c'.updated_at = now ∧
        c'.entries = [{ conversation_id := cid, timestamp := now, query := q, response := r,
                        landmark_ids := lids, landmark_names := lnames,
                        sources_used := srcs }]) := by
  constructor
  · unfold add_entry
    by_cases h : s.memory_enabled <;> simp [h]
  · intro hen hnone
    have h1 : dictGet cid (cleanup_expired now s).conversations = none := by
      unfold cleanup_expired
      rw [hen, if_pos rfl]
      exact dictGet_filter_none _ _ hnone
    unfold add_entry
    rw [hen, if_pos rfl]
    simp only [h1, Option.getD_none]
    refine ⟨_, dictGet_dictSet_self _ _ _, ?_, ?_, ?_⟩
    · rw [add_entry_conv_id]; rfl
    · exact add_entry_conv_updated_at ..
    · rw [add_entry_conv_entries]; rfl

/-- Sample enabled store with no conversations. -/
def memA : MemoryService := { conversations := [], ttl_seconds := 100, memory_enabled := true }

/-- Sample disabled store with no conversations. -/
def memOff : MemoryService := { conversations := [], ttl_seconds := 100, memory_enabled := false }

/-- Witness for C7 at a concrete unknown conversation id. -/
theorem C7_witness :
    ((add_entry 5 "c1" "q" "r" ["LP-00001"] [] [] memA).2 = true) ∧
    (∃ c', dictGet "c1" ((add_entry 5 "c1" "q" "r" ["LP-00001"] [] [] memA).1).conversations
        = some c' ∧
      c'.id = "c1" ∧ c'.updated_at = 5 ∧
      c'.entries = [{ conversation_id := "c1", timestamp := 5, query := "q", response := "r",
                      landmark_ids := ["LP-00001"], landmark_names := [],
                      sources_used := [] }]) :=
  ⟨(C7_theorem 5 "c1" "q" "r" ["LP-00001"] [] [] memA).1,
   (C7_theorem 5 "c1" "q" "r" ["LP-00001"] [] [] memA).2 rfl rfl⟩

/-- C8: with memory disabled, `add_entry` returns true and leaves the state
unchanged and `delete_conversation` returns true without removing anything;
with memory enabled, deleting an unknown conversation id returns false. -/
theorem C8_theorem (now : Int) (cid q r : String) (lids lnames : List String)
    (srcs : List SourceDocument) (s : MemoryService) :
    (s.memory_enabled = false →
      (add_entry now cid q r lids lnames srcs s).2 = true ∧
      (add_entry now cid q r lids lnames srcs s).1 = s ∧
      (delete_conversation cid s).2 = true ∧
      (delete_conversation cid s).1 = s) ∧
    (s.memory_enabled = true → dictGet cid s.conversations = none →
      (delete_conversation cid s).2 = false) := by
  constructor
  · intro h
    refine ⟨?_, ?_, ?_, ?_⟩ <;> simp [add_entry, delete_conversation, h]
  · intro h hnone
    unfold delete_conversation
    rw [h, if_pos rfl, hnone]

/-- Witness for C8 at concrete stores. -/
theorem C8_witness :
    ((add_entry 3 "c9" "q" "r" [] [] [] memOff).2 = true ∧
     (add_entry 3 "c9" "q" "r" [] [] [] memOff).1 = memOff ∧
     (delete_conversation "c9" memOff).2 = true ∧
     (delete_conversation "c9" memOff).1 = memOff) ∧
    (delete_conversation "c9" memA).2 = false :=
  ⟨(C8_theorem 3 "c9" "q" "r" [] [] [] memOff).1 rfl,
   (C8_theorem 3 "c9" "q" "r" [] [] [] memA).2 rfl rfl⟩

/-! ### State lemmas for the store operations -/

theorem cleanup_expired_conversations (now : Int) (s : MemoryService)
    (hen : s.memory_enabled = true) :
    (cleanup_expired now s).conversations =
      s.conversations.filter (fun kv => !decide (now - kv.2.updated_at > s.ttl_seconds)) := by
  unfold cleanup_expired
  rw [hen, if_pos rfl]

theorem get_conversation_state (now : Int) (cid : String) (s : MemoryService)
    (hen : s.memory_enabled = true) :
    (get_conversation now cid s).1 = cleanup_expired now s := by
  unfold get_conversation
  rw [hen, if_pos rfl]

theorem get_history_state (now : Int) (cid : String) (s : MemoryService)
    (hen : s.memory_enabled = true) :
    (get_conversation_history now cid s).1 = cleanup_expired now s := by
  unfold get_conversation_history
  rw [hen, if_pos rfl]
  cases hd : dictGet cid (cleanup_expired now s).conversations <;> simp [hd]

theorem add_entry_conversations (now : Int) (cid q r : String)
    (lids lnames : List String) (srcs : List SourceDocument) (s : MemoryService)
    (hen : s.memory_enabled = true) :
    ((add_entry now cid q r lids lnames srcs s).1).conversations =
      dictSet cid
        (add_entry_conv now cid q r lids lnames srcs
          ((dictGet cid (cleanup_expired now s).conversations).getD
            (newConversation cid now)))
        (cleanup_expired now s).conversations := by
  unfold add_entry
  rw [hen, if_pos rfl]

theorem dictGet_mem {α : Type} {k : String} {l : List (String × α)} {v : α}
    (h : dictGet k l = some v) : (k, v) ∈ l := by
  induction l with
  | nil => simp [dictGet] at h
  | cons kv rest ih =>
    obtain ⟨k', v'⟩ := kv
    by_cases hk : k' = k
    · subst hk
      simp only [dictGet, if_pos rfl] at h
      cases h
      exact List.mem_cons_self _ _
    · simp only [dictGet, if_neg hk] at h
      exact List.mem_cons_of_mem _ (ih h)

theorem mem_dictSet {α : Type} {k : String} {v : α} {l : List (String × α)}
    {x : String × α} (h : x ∈ dictSet k v l) : x = (k, v) ∨ x ∈ l := by
  induction l with
  | nil => simp [dictSet] at h; simp [h]
  | cons kv rest ih =>
    obtain ⟨k', v'⟩ := kv
    by_cases hk : k' = k
    · subst hk
      rw [dictSet, if_pos rfl] at h
      rcases List.mem_cons.mp h with h | h
      · exact Or.inl h
      · exact Or.inr (List.mem_cons_of_mem _ h)
    · rw [dictSet, if_neg hk] at h
      rcases List.mem_cons.mp h with h | h
      · exact Or.inr (by simp [h])
      · rcases ih h with h2 | h2
        · exact Or.inl h2
        · exact Or.inr (List.mem_cons_of_mem _ h2)

/-! ### C3 / C4: TTL expiry behaviour of store operations -/

/-- An enabled store holding one conversation last updated at time 0, TTL 2. -/
def convC3 : Conversation := newConversation "c3conv" 0

def memC3 : MemoryService :=
  { conversations := [("c3conv", convC3)], ttl_seconds := 2, memory_enabled := true }

/-- C3 counterexample: `delete_conversation` is a store operation, yet running it
(on a different id) at time 7 leaves the conversation of age 7 > TTL 2 in the
store, contradicting the claim for "every store operation". -/
theorem C3_counterexample :
    (7 : Int) - convC3.updated_at > memC3.ttl_seconds ∧
    dictGet "c3conv"
        (runStoreOp (StoreOp.deleteConversation "other") 7 memC3).conversations
      = some convC3 := by
  decide

/-- C3 (amended): for the sweep-running operations (`add_entry`,
`get_conversation`, `get_conversation_history`): a conversation whose age
exceeds the TTL is absent afterwards — unless the operation is an `add_entry`
targeting that very id, which recreates a fresh single-entry conversation — and
a conversation whose age is at most the TTL (boundary included) survives. -/
theorem C3_theorem (s : MemoryService) (op : StoreOp) (now : Int) (cid : String)
    (c : Conversation) (hen : s.memory_enabled = true) (hnd : keysNodup s.conversations)
    (hsw : op.runsSweep = true) (hc : dictGet cid s.conversations = some c) :
    (now - c.updated_at > s.ttl_seconds → op.addTarget ≠ some cid →
      dictGet cid (runStoreOp op now s).conversations = none) ∧
    (∀ q r lids lnames srcs, now - c.updated_at > s.ttl_seconds →
      op = StoreOp.addEntry cid q r lids lnames srcs →
      ∃ c', dictGet cid (runStoreOp op now s).conversations = some c' ∧
        c'.updated_at = now ∧ c'.entries.length = 1) ∧
    (now - c.updated_at ≤ s.ttl_seconds →
      ∃ c', dictGet cid (runStoreOp op now s).conversations = some c') := by
  have hclean := cleanup_expired_conversations now s hen
  have hgone : now - c.updated_at > s.ttl_seconds →
      dictGet cid (cleanup_expired now s).conversations = none := by
    intro hexp
    rw [hclean]
    exact dictGet_filter_of_neg hc (by simp [hexp]) hnd
  have hkeep : now - c.updated_at ≤ s.ttl_seconds →
      dictGet cid (cleanup_expired now s).conversations = some c := by
    intro halive
    rw [hclean]
    exact dictGet_filter_of_pos hc (by simp [not_lt.mpr halive])
  refine ⟨?_, ?_, ?_⟩
  · intro hexp htar
    cases op with
    | deleteConversation cid0 => simp [StoreOp.runsSweep] at hsw
    | getConversation cid0 =>
      show dictGet cid (get_conversation now cid0 s).1.conversations = none
      rw [get_conversation_state _ _ _ hen]
      exact hgone hexp
    | getHistory cid0 =>
      show dictGet cid (get_conversation_history now cid0 s).1.conversations = none
      rw [get_history_state _ _ _ hen]
      exact hgone hexp
    | addEntry cid0 q r lids lnames srcs =>
      have hne : cid ≠ cid0 := by
        intro hh
        exact htar (by simp [StoreOp.addTarget, hh])
      show dictGet cid (add_entry now cid0 q r lids lnames srcs s).1.conversations = none
      rw [add_entry_conversations _ _ _ _ _ _ _ _ hen, dictGet_dictSet_ne _ _ hne]
      exact hgone hexp
  · intro q r lids lnames srcs hexp heq
    subst heq
    show ∃ c', dictGet cid (add_entry now cid q r lids lnames srcs s).1.conversations
        = some c' ∧ c'.updated_at = now ∧ c'.entries.length = 1
    rw [add_entry_conversations _ _ _ _ _ _ _ _ hen, hgone hexp]
    refine ⟨_, dictGet_dictSet_self _ _ _, add_entry_conv_updated_at .., ?_⟩
    rw [add_entry_conv_entries]
    rfl
  · intro halive
    cases op with
    | deleteConversation cid0 => simp [StoreOp.runsSweep] at hsw
    | getConversation cid0 =>
      refine ⟨c, ?_⟩
      show dictGet cid (get_conversation now cid0 s).1.conversations = some c
      rw [get_conversation_state _ _ _ hen]
      exact hkeep halive
    | getHistory cid0 =>
      refine ⟨c, ?_⟩
      show dictGet cid (get_conversation_history now cid0 s).1.conversations = some c
      rw [get_history_state _ _ _ hen]
      exact hkeep halive
    | addEntry cid0 q r lids lnames srcs =>
      show ∃ c', dictGet cid (add_entry now cid0 q r lids lnames srcs s).1.conversations
          = some c'
      rw [add_entry_conversations _ _ _ _ _ _ _ _ hen]
      by_cases hcc : cid0 = cid
      · subst hcc
        exact ⟨_, dictGet_dictSet_self _ _ _⟩
      · rw [dictGet_dictSet_ne _ _ (fun hh => hcc hh.symm)]
        exact ⟨c, hkeep halive⟩

/-- Store used to witness C3 and C4: one expired and one fresh conversation. -/
def memW3 : MemoryService :=
  { conversations := [("a", newConversation "a" 0), ("b", newConversation "b" 10)],
    ttl_seconds := 5, memory_enabled := true }

/-- Witness for C3 at a sweep-running operation: the expired conversation "a"
is gone afterwards, the fresh conversation "b" survives. -/
theorem C3_witness :
    dictGet "a" (runStoreOp (StoreOp.getConversation "z") 10 memW3).conversations = none ∧
    ∃ c', dictGet "b" (runStoreOp (StoreOp.getConversation "z") 10 memW3).conversations
        = some c' :=
  ⟨(C3_theorem memW3 (StoreOp.getConversation "z") 10 "a" (newConversation "a" 0) rfl
      (by decide) rfl (by decide)).1 (by decide) (by decide),
   (C3_theorem memW3 (StoreOp.getConversation "z") 10 "b" (newConversation "b" 10) rfl
      (by decide) rfl (by decide)).2.2 (by decide)⟩

/-- Store used for the C4 counterexample: an expired conversation, TTL 3. -/
def memC4 : MemoryService :=
  { conversations := [("expired4", newConversation "expired4" 0)],
    ttl_seconds := 3, memory_enabled := true }

/-- C4 counterexample: `delete_conversation` consults the store but does not
run the expiry sweep — after `delete_conversation "missing"` at time 10, the
conversation of age 10 > TTL 3 is still stored. -/
theorem C4_counterexample :
    (10 : Int) - (newConversation "expired4" 0).updated_at > memC4.ttl_seconds ∧
    dictGet "expired4"
        (runStoreOp (StoreOp.deleteConversation "missing") 10 memC4).conversations
      = some (newConversation "expired4" 0) := by
  decide

/-- C4 (amended): `add_entry`, `get_conversation` and `get_conversation_history`
run the expiry sweep first, so after any of them (with a non-negative TTL) every
stored conversation has age at most the TTL; `delete_conversation` does not run
the sweep. -/
theorem C4_theorem (s : MemoryService) (op : StoreOp) (now : Int)
    (hen : s.memory_enabled = true) (hsw : op.runsSweep = true)
    (httl : 0 ≤ s.ttl_seconds) :
    ∀ cid c', dictGet cid (runStoreOp op now s).conversations = some c' →
      now - c'.updated_at ≤ s.ttl_seconds := by
  intro cid c' hc'
  have survivors : ∀ kv : String × Conversation,
      kv ∈ s.conversations.filter
        (fun kv => !decide (now - kv.2.updated_at > s.ttl_seconds)) →
      now - kv.2.updated_at ≤ s.ttl_seconds := by
    intro kv hkv
    have hp := (List.mem_filter.mp hkv).2
    simp only [Bool.not_eq_true', decide_eq_false_iff_not, not_lt] at hp
    exact hp
  cases op with
  | deleteConversation cid0 => simp [StoreOp.runsSweep] at hsw
  | getConversation cid0 =>
    rw [show runStoreOp (StoreOp.getConversation cid0) now s
          = (get_conversation now cid0 s).1 from rfl,
        get_conversation_state _ _ _ hen, cleanup_expired_conversations _ _ hen] at hc'
    exact survivors _ (dictGet_mem hc')
  | getHistory cid0 =>
    rw [show runStoreOp (StoreOp.getHistory cid0) now s
          = (get_conversation_history now cid0 s).1 from rfl,
        get_history_state _ _ _ hen, cleanup_expired_conversations _ _ hen] at hc'
    exact survivors _ (dictGet_mem hc')
  | addEntry cid0 q r lids lnames srcs =>
    rw [show (runStoreOp (StoreOp.addEntry cid0 q r lids lnames srcs) now s).conversations
          = (add_entry now cid0 q r lids lnames srcs s).1.conversations from rfl,
        add_entry_conversations _ _ _ _ _ _ _ _ hen] at hc'
    rcases mem_dictSet (dictGet_mem hc') with heq | hmem
    · have hup : c' = add_entry_conv now cid0 q r lids lnames srcs
          ((dictGet cid0 (cleanup_expired now s).conversations).getD
            (newConversation cid0 now)) := congrArg Prod.snd heq
      rw [hup, add_entry_conv_updated_at]
      omega
    · rw [cleanup_expired_conversations _ _ hen] at hmem
      exact survivors _ hmem

/-- Witness for C4: after `add_entry` on "b" at time 10 every stored
conversation of `memW3` is within the TTL; instantiated at "b" itself. -/
theorem C4_witness :
    (10 : Int) -
        (add_entry_conv 10 "b" "q" "r" [] [] [] (newConversation "b" 10)).updated_at
      ≤ memW3.ttl_seconds :=
  C4_theorem memW3 (StoreOp.addEntry "b" "q" "r" [] [] []) 10 rfl rfl (by decide) "b"
    (add_entry_conv 10 "b" "q" "r" [] [] [] (newConversation "b" 10)) (by decide)

/-! ### C5: landmark_focus lifecycle -/

/-- Fresh enabled store for the C5 counterexample and witness. -/
def memC5 : MemoryService :=
  { conversations := [], ttl_seconds := 100, memory_enabled := true }

/-- State after a first entry whose landmark id list is the non-empty `[""]`. -/
def memC5a : MemoryService := (add_entry 0 "c5" "q1" "r1" [""] [] [] memC5).1

/-- State after a second entry carrying a different landmark id. -/
def memC5b : MemoryService := (add_entry 1 "c5" "q2" "r2" ["LP-00002"] [] [] memC5a).1

/-- C5 counterexample: the first `add_entry` carrying the non-empty
`landmark_ids` list `[""]` sets `landmark_focus` to `""`; because the source
guards with Python truthiness (`not ...landmark_focus`), the second call then
overwrites the focus — it is not set at most once during the conversation's
lifetime. -/
theorem C5_counterexample :
    ((dictGet "c5" memC5a.conversations).map Conversation.landmark_focus
       = some (some "")) ∧
    ((dictGet "c5" memC5b.conversations).map Conversation.landmark_focus
       = some (some "LP-00002")) := by
  decide

/-- C5 (amended): `landmark_focus` is set by an `add_entry` call iff the call
carries a non-empty `landmark_ids` list while the stored focus is falsy (absent
or the empty string), in which case it becomes that call's first landmark id;
an `add_entry` carrying an empty `landmark_ids` list leaves every surviving
conversation's focus unchanged (a freshly created conversation keeps `none`),
and once the focus is a non-empty id, no later `add_entry` changes it while the
conversation is retained by the sweep. -/
theorem C5_theorem (s : MemoryService) (now : Int) (cid q r : String)
    (lids lnames : List String) (srcs : List SourceDocument)
    (hen : s.memory_enabled = true) :
    (∀ cid' c f, dictGet cid' s.conversations = some c →
       c.landmark_focus = some f → f ≠ "" →
       now - c.updated_at ≤ s.ttl_seconds →
       ∃ c', dictGet cid' ((add_entry now cid q r lids lnames srcs s).1).conversations
           = some c' ∧ c'.landmark_focus = some f) ∧
    (∀ l rest, lids = l :: rest → dictGet cid s.conversations = none →
       ∃ c', dictGet cid ((add_entry now cid q r lids lnames srcs s).1).conversations
           = some c' ∧ c'.landmark_focus = some l) ∧
    (∀ l rest c, lids = l :: rest → dictGet cid s.conversations = some c →
       focusFalsy c.landmark_focus = true → now - c.updated_at ≤ s.ttl_seconds →
       ∃ c', dictGet cid ((add_entry now cid q r lids lnames srcs s).1).conversations
           = some c' ∧ c'.landmark_focus = some l) ∧
    (∀ cid' c, lids = [] → dictGet cid' s.conversations = some c →
       now - c.updated_at ≤ s.ttl_seconds →
       ∃ c', dictGet cid' ((add_entry now cid q r lids lnames srcs s).1).conversations
           = some c' ∧ c'.landmark_focus = c.landmark_focus) ∧
    (lids = [] → dictGet cid s.conversations = none →
       ∃ c', dictGet cid ((add_entry now cid q r lids lnames srcs s).1).conversations
           = some c' ∧ c'.landmark_focus = none) := by
  have hclean := cleanup_expired_conversations now s hen
  refine ⟨?_, ?_, ?_, ?_, ?_⟩
  · intro cid' c f hc hf hfne halive
    have hkeep : dictGet cid' (cleanup_expired now s).conversations = some c := by
      rw [hclean]
      exact dictGet_filter_of_pos hc (by simp [not_lt.mpr halive])
    rw [add_entry_conversations _ _ _ _ _ _ _ _ hen]
    by_cases hcc : cid = cid'
    · subst hcc
      rw [hkeep]
      refine ⟨_, dictGet_dictSet_self _ _ _, ?_⟩
      rw [add_entry_conv_focus_stable _ _ _ _ _ _ _ _ (by simp [focusFalsy, hf, hfne])]
      exact hf
    · rw [dictGet_dictSet_ne _ _ (fun hh => hcc hh.symm)]
      exact ⟨c, hkeep, hf⟩
  · intro l rest hl hnone
    have h1 : dictGet cid (cleanup_expired now s).conversations = none := by
      rw [hclean]
      exact dictGet_filter_none _ _ hnone
    rw [add_entry_conversations _ _ _ _ _ _ _ _ hen, h1]
    subst hl
    refine ⟨_, dictGet_dictSet_self _ _ _, ?_⟩
    exact add_entry_conv_focus_set _ _ _ _ _ _ _ _ _ rfl
  · intro l rest c hl hc hfal halive
    have hkeep : dictGet cid (cleanup_expired now s).conversations = some c := by
      rw [hclean]
      exact dictGet_filter_of_pos hc (by simp [not_lt.mpr halive])
    rw [add_entry_conversations _ _ _ _ _ _ _ _ hen, hkeep]
    subst hl
    refine ⟨_, dictGet_dictSet_self _ _ _, ?_⟩
    exact add_entry_conv_focus_set _ _ _ _ _ _ _ _ _ hfal
  · intro cid' c hl hc halive
    subst hl
    have hkeep : dictGet cid' (cleanup_expired now s).conversations = some c := by
      rw [hclean]
      exact dictGet_filter_of_pos hc (by simp [not_lt.mpr halive])
    rw [add_entry_conversations _ _ _ _ _ _ _ _ hen]
    by_cases hcc : cid = cid'
    · subst hcc
      rw [hkeep]
      refine ⟨_, dictGet_dictSet_self _ _ _, ?_⟩
      exact (add_entry_conv_focus_nil ..).trans rfl
    · rw [dictGet_dictSet_ne _ _ (fun hh => hcc hh.symm)]
      exact ⟨c, hkeep, rfl⟩
  · intro hl hnone
    subst hl
    have h1 : dictGet cid (cleanup_expired now s).conversations = none := by
      rw [hclean]
      exact dictGet_filter_none _ _ hnone
    rw [add_entry_conversations _ _ _ _ _ _ _ _ hen, h1]
    refine ⟨_, dictGet_dictSet_self _ _ _, ?_⟩
    exact (add_entry_conv_focus_nil ..).trans rfl

/-- State of `memC5` after appending a first entry with landmark id LP-00001. -/
def memC5w1 : MemoryService := (add_entry 0 "w5" "q1" "r1" ["LP-00001"] [] [] memC5).1

/-- The conversation stored in `memC5w1`. -/
def convC5w1 : Conversation :=
  { id := "w5", created_at := 0, updated_at := 0,
    entries := [{ conversation_id := "w5", timestamp := 0, query := "q1", response := "r1",
                  landmark_ids := ["LP-00001"], landmark_names := [], sources_used := [] }],
    landmark_focus := some "LP-00001", metadata := [] }

/-- State of `memC5` after a first entry carrying no landmark ids: its single
conversation "v5" has an absent (falsy) focus. -/
def memC5v1 : MemoryService := (add_entry 0 "v5" "qa" "ra" [] [] [] memC5).1

/-- The conversation stored in `memC5v1`. -/
def convC5v1 : Conversation :=
  { id := "v5", created_at := 0, updated_at := 0,
    entries := [{ conversation_id := "v5", timestamp := 0, query := "qa", response := "ra",
                  landmark_ids := [], landmark_names := [], sources_used := [] }],
    landmark_focus := none, metadata := [] }

/-- Witness for C5: the round-trip of the claim — a first entry with
`landmark_ids = ["LP-00001"]` on a fresh conversation sets the focus to
LP-00001 and a second entry with a different landmark id leaves it unchanged —
and the other direction: entries carrying an empty `landmark_ids` list leave an
absent focus absent, on a fresh conversation and on an existing one. -/
theorem C5_witness :
    (∃ c', dictGet "w5" memC5w1.conversations = some c' ∧
       c'.landmark_focus = some "LP-00001") ∧
    (∃ c'', dictGet "w5"
          ((add_entry 1 "w5" "q2" "r2" ["LP-00002"] [] [] memC5w1).1).conversations
        = some c'' ∧ c''.landmark_focus = some "LP-00001") ∧
    (∃ c₃, dictGet "v5" memC5v1.conversations = some c₃ ∧
       c₃.landmark_focus = none) ∧
    (∃ c₄, dictGet "v5"
          ((add_entry 1 "v5" "qb" "rb" [] [] [] memC5v1).1).conversations
        = some c₄ ∧ c₄.landmark_focus = convC5v1.landmark_focus) :=
  ⟨(C5_theorem memC5 0 "w5" "q1" "r1" ["LP-00001"] [] [] rfl).2.1 "LP-00001" [] rfl rfl,
   (C5_theorem memC5w1 1 "w5" "q2" "r2" ["LP-00002"] [] [] (by decide)).1 "w5" convC5w1
     "LP-00001" (by decide) (by decide) (by decide) (by decide),
   (C5_theorem memC5 0 "v5" "qa" "ra" [] [] [] rfl).2.2.2.2 rfl rfl,
   (C5_theorem memC5v1 1 "v5" "qb" "rb" [] [] [] (by decide)).2.2.2.1 "v5" convC5v1
     rfl (by decide) (by decide)⟩

/-! ### Report Assembler: _prepare_sources (src/services/research_service.py) -/

/-- Python dict-literal merge for
`{"landmark_id": passage.landmark_id, **passage.metadata}`: start from the
`landmark_id` binding, then apply each metadata binding (overriding in place or
appending). -/
def mergeMeta (base : Meta) (updates : Meta) : Meta :=
  updates.foldl (fun acc kv => dictSet kv.1 kv.2 acc) base

/-- The `SourceDocument` built for one passage inside `_prepare_sources`. -/
def mkSourceDocument (p : SourcePassage) : SourceDocument :=
  { source_id := p.source_id, source_type := "pdf", title := p.source_title,
    content := p.text, page := p.page_number,
    relevance_score := some p.relevance_score,
    metadata := mergeMeta [("landmark_id", p.landmark_id)] p.metadata }

/-- The ordering used by `sorted(passages, key=lambda p: p.relevance_score,
reverse=True)`: `a` before `b` when `b`'s score is at most `a`'s. -/
def passageGe (a b : SourcePassage) : Prop :=
  b.relevance_score ≤ a.relevance_score

instance : DecidableRel passageGe :=
  fun a b => inferInstanceAs (Decidable (b.relevance_score ≤ a.relevance_score))

instance : IsTotal SourcePassage passageGe :=
  ⟨fun a b => le_total b.relevance_score a.relevance_score⟩

instance : IsTrans SourcePassage passageGe :=
  ⟨fun _ _ _ h1 h2 => le_trans h2 h1⟩

/-- The dedup-and-truncate loop of `_prepare_sources`: walk the sorted
passages, skip already-seen source ids, stop once `max_sources` documents are
collected (Python checks `len(sources) >= max_sources` before each step). -/
def prepare_sources_loop : List SourcePassage → Nat → List String → List SourceDocument
  | [], _, _ => []
  | p :: rest, remaining, seen =>
    if remaining = 0 then []
    else if p.source_id ∈ seen then prepare_sources_loop rest remaining seen
    else mkSourceDocument p :: prepare_sources_loop rest (remaining - 1) (p.source_id :: seen)

/-- `ResearchService._prepare_sources`.  Python's `sorted` is the unique stable
sort; `List.insertionSort passageGe` has exactly its defining properties
(permutation, non-increasing scores, score-class stability), proved below. -/
def _prepare_sources (passages : List SourcePassage) (max_sources : Nat) :
    List SourceDocument :=
  prepare_sources_loop (List.insertionSort passageGe passages) max_sources []

/-- Score comparison on the produced documents (all carry a `some` score). -/
def docScoreGe (a b : SourceDocument) : Prop :=
  b.relevance_score.getD 0 ≤ a.relevance_score.getD 0

/-- Number of distinct source ids among the input passages. -/
def distinct_source_id_count (passages : List SourcePassage) : Nat :=
  ((passages.map SourcePassage.source_id).dedup).length

/-! #### Lemmas about the loop -/

theorem prepare_sources_loop_sublist (l : List SourcePassage) (n : Nat)
    (seen : List String) :
    List.Sublist (prepare_sources_loop l n seen) (l.map mkSourceDocument) := by
  induction l generalizing n seen with
  | nil => simp [prepare_sources_loop]
  | cons p rest ih =>
    by_cases h0 : n = 0
    · simp [prepare_sources_loop, h0]
    · by_cases hm : p.source_id ∈ seen
      · rw [prepare_sources_loop, if_neg h0, if_pos hm]
        exact (ih _ _).cons _
      · rw [prepare_sources_loop, if_neg h0, if_neg hm]
        exact (ih _ _).cons₂ _

theorem prepare_sources_loop_length (l : List SourcePassage) (n : Nat)
    (seen : List String) : (prepare_sources_loop l n seen).length ≤ n := by
  induction l generalizing n seen with
  | nil => simp [prepare_sources_loop]
  | cons p rest ih =>
    by_cases h0 : n = 0
    · simp [prepare_sources_loop, h0]
    · by_cases hm : p.source_id ∈ seen
      · rw [prepare_sources_loop, if_neg h0, if_pos hm]
        exact ih _ _
      · rw [prepare_sources_loop, if_neg h0, if_neg hm]
        have := ih (n - 1) (p.source_id :: seen)
        simp only [List.length_cons]
        omega

theorem prepare_sources_loop_ids (l : List SourcePassage) (n : Nat)
    (seen : List String) :
    ((prepare_sources_loop l n seen).map SourceDocument.source_id).Nodup ∧
    ∀ i ∈ (prepare_sources_loop l n seen).map SourceDocument.source_id, i ∉ seen := by
  induction l generalizing n seen with
  | nil => simp [prepare_sources_loop]
  | cons p rest ih =>
    by_cases h0 : n = 0
    · simp [prepare_sources_loop, h0]
    · by_cases hm : p.source_id ∈ seen
      · rw [prepare_sources_loop, if_neg h0, if_pos hm]
        exact ih _ _
      · rw [prepare_sources_loop, if_neg h0, if_neg hm]
        obtain ⟨hnd, hout⟩ := ih (n - 1) (p.source_id :: seen)
        have hid : (mkSourceDocument p).source_id = p.source_id := rfl
        constructor
        · simp only [List.map_cons, List.nodup_cons, hid]
          refine ⟨fun hmem => ?_, hnd⟩
          exact (hout _ hmem) (List.mem_cons_self _ _)
        · intro i hi
          simp only [List.map_cons, List.mem_cons, hid] at hi
          rcases hi with hi | hi
          · subst hi; exact hm
          · exact fun hseen => (hout _ hi) (List.mem_cons_of_mem _ hseen)

theorem prepare_sources_loop_from_first (l : List SourcePassage) (n : Nat)
    (seen : List String) {d : SourceDocument}
    (hd : d ∈ prepare_sources_loop l n seen) :
    ∃ u p v, l = u ++ p :: v ∧ d = mkSourceDocument p ∧ p.source_id ∉ seen ∧
      ∀ q ∈ u, q.source_id ≠ p.source_id ∨ q.source_id ∈ seen := by
  induction l generalizing n seen with
  | nil => simp [prepare_sources_loop] at hd
  | cons p0 rest ih =>
    by_cases h0 : n = 0
    · rw [prepare_sources_loop, if_pos h0] at hd
      simp at hd
    · by_cases hm : p0.source_id ∈ seen
      · rw [prepare_sources_loop, if_neg h0, if_pos hm] at hd
        obtain ⟨u, p, v, hls, hdm, hns, hu⟩ := ih _ _ hd
        refine ⟨p0 :: u, p, v, by rw [hls, List.cons_append], hdm, hns, ?_⟩
        intro q hq
        rcases List.mem_cons.mp hq with h | h
        · subst h; exact Or.inr hm
        · exact hu q h
      · rw [prepare_sources_loop, if_neg h0, if_neg hm] at hd
        rcases List.mem_cons.mp hd with h | h
        · exact ⟨[], p0, rest, rfl, h, hm, by simp⟩
        · obtain ⟨u, p, v, hls, hdm, hns, hu⟩ := ih _ _ h
          have hpne : p.source_id ≠ p0.source_id := by
            intro hh
            exact hns (by rw [hh]; exact List.mem_cons_self _ _)
          refine ⟨p0 :: u, p, v, by rw [hls, List.cons_append], hdm,
            fun hh => hns (List.mem_cons_of_mem _ hh), ?_⟩
          intro q hq
          rcases List.mem_cons.mp hq with h2 | h2
          · subst h2; exact Or.inl (fun hh => hpne hh.symm)
          · rcases hu q h2 with h3 | h3
            · exact Or.inl h3
            · rcases List.mem_cons.mp h3 with h4 | h4
              · exact Or.inl (by rw [h4]; exact fun hh => hpne hh.symm)
              · exact Or.inr h4

/-! #### Stability of the sort -/

/-- Inserting preserves each score class: within the passages of one
relevance score, `orderedInsert`/`insertionSort` keeps the original order. -/
theorem filter_score_insertionSort (s : ℚ) (l : List SourcePassage) :
    (List.insertionSort passageGe l).filter (fun p => decide (p.relevance_score = s))
      = l.filter (fun p => decide (p.relevance_score = s)) := by
  induction l with
  | nil => rfl
  | cons a l ih =>
    have hsplit := List.takeWhile_append_dropWhile
      (fun b => decide ¬ passageGe a b) (List.insertionSort passageGe l)
    by_cases hs : a.relevance_score = s
    · have htw : ((List.insertionSort passageGe l).takeWhile
          (fun b => decide ¬ passageGe a b)).filter
            (fun p => decide (p.relevance_score = s)) = [] := by
        rw [List.filter_eq_nil_iff]
        intro b hb hbs
        have hp := List.mem_takeWhile_imp hb
        simp only [decide_eq_true_eq] at hp hbs
        exact hp (by unfold passageGe; rw [hbs, hs])
      have hQeq : (List.insertionSort passageGe l).filter
            (fun p => decide (p.relevance_score = s))
          = ((List.insertionSort passageGe l).dropWhile
              (fun b => decide ¬ passageGe a b)).filter
            (fun p => decide (p.relevance_score = s)) := by
        conv_lhs => rw [← hsplit]
        rw [List.filter_append, htw, List.nil_append]
      rw [List.insertionSort, List.orderedInsert_eq_take_drop, List.filter_append, htw,
        List.nil_append, List.filter_cons_of_pos (by simp [hs]),
        List.filter_cons_of_pos (by simp [hs]), ← hQeq, ih]
    · rw [List.insertionSort, List.orderedInsert_eq_take_drop, List.filter_append,
        List.filter_cons_of_neg (by simp [hs]), List.filter_cons_of_neg (by simp [hs]),
        ← List.filter_append, hsplit, ih]

/-- C2: `_prepare_sources` returns at most `min max_sources M` documents
(`M` = number of distinct input source ids), with pairwise distinct source ids,
ordered by non-increasing relevance score, and with equal-score passages kept in
their original input order (each score class of the output is a subsequence of
the input's score class, mapped to documents). -/
theorem C2_theorem (passages : List SourcePassage) (max_sources : Nat) :
    (_prepare_sources passages max_sources).length
        ≤ min max_sources (distinct_source_id_count passages) ∧
    ((_prepare_sources passages max_sources).map SourceDocument.source_id).Nodup ∧
    (_prepare_sources passages max_sources).Pairwise docScoreGe ∧
    ∀ s : ℚ, List.Sublist
      ((_prepare_sources passages max_sources).filter
        (fun d => decide (d.relevance_score = some s)))
      ((passages.filter (fun p => decide (p.relevance_score = s))).map
        mkSourceDocument) := by
  have hsub := prepare_sources_loop_sublist (List.insertionSort passageGe passages)
      max_sources []
  have hids := prepare_sources_loop_ids (List.insertionSort passageGe passages)
      max_sources []
  refine ⟨?_, hids.1, ?_, ?_⟩
  · refine le_min (prepare_sources_loop_length _ _ _) ?_
    have h1 : ((_prepare_sources passages max_sources).map SourceDocument.source_id)
        ⊆ (passages.map SourcePassage.source_id).dedup := by
      intro i hi
      rw [List.mem_dedup]
      obtain ⟨d, hd, hdi⟩ := List.mem_map.mp hi
      obtain ⟨u, p, v, hls, hdm, _, _⟩ := prepare_sources_loop_from_first _ _ _ hd
      have hpmem : p ∈ List.insertionSort passageGe passages := by
        rw [hls]
        exact List.mem_append_right _ (List.mem_cons_self _ _)
      rw [List.mem_insertionSort] at hpmem
      rw [← hdi, hdm]
      exact List.mem_map.mpr ⟨p, hpmem, rfl⟩
    have h2 := (List.Nodup.subperm hids.1 h1).length_le
    rw [List.length_map] at h2
    calc (_prepare_sources passages max_sources).length
        = ((_prepare_sources passages max_sources).map SourceDocument.source_id).length :=
          (List.length_map _ _).symm
      _ ≤ _ := (List.Nodup.subperm hids.1 h1).length_le
  · have hsorted : List.Pairwise passageGe (List.insertionSort passageGe passages) :=
      List.sorted_insertionSort passageGe passages
    have hmap : List.Pairwise docScoreGe
        ((List.insertionSort passageGe passages).map mkSourceDocument) :=
      List.Pairwise.map mkSourceDocument
        (fun a b hab => by
          simp only [docScoreGe, mkSourceDocument, Option.getD_some]
          exact hab)
        hsorted
    exact List.Pairwise.sublist hsub hmap
  · intro s
    have hstep := List.Sublist.filter (fun d => decide (d.relevance_score = some s)) hsub
    have hcomm : ((List.insertionSort passageGe passages).map mkSourceDocument).filter
          (fun d => decide (d.relevance_score = some s))
        = ((List.insertionSort passageGe passages).filter
            (fun p => decide (p.relevance_score = s))).map mkSourceDocument := by
      rw [List.filter_map]
      have hfun : ((fun d : SourceDocument => decide (d.relevance_score = some s))
            ∘ mkSourceDocument)
          = (fun p : SourcePassage => decide (p.relevance_score = s)) := by
        funext p
        simp [mkSourceDocument, Function.comp, decide_eq_decide]
      rw [hfun]
    rw [hcomm, filter_score_insertionSort] at hstep
    exact hstep

/-- C10: every returned source document is built from a passage whose relevance
score is maximal among the input passages with that source id, and that passage
is the first such maximal-score passage in original input order; its score,
title, page and text are inherited. -/
theorem C10_theorem (passages : List SourcePassage) (max_sources : Nat)
    (d : SourceDocument) (hd : d ∈ _prepare_sources passages max_sources) :
    ∃ p, p ∈ passages ∧ d = mkSourceDocument p ∧
      (∀ q ∈ passages, q.source_id = p.source_id →
        q.relevance_score ≤ p.relevance_score) ∧
      (passages.filter (fun q => decide (q.source_id = p.source_id)
          && decide (q.relevance_score = p.relevance_score))).head? = some p ∧
      d.relevance_score = some p.relevance_score ∧ d.title = p.source_title ∧
      d.page = p.page_number ∧ d.content = p.text := by
  obtain ⟨u, p, v, hls, hdm, _, hu⟩ :=
    prepare_sources_loop_from_first (List.insertionSort passageGe passages)
      max_sources [] hd
  have hufirst : ∀ q ∈ u, q.source_id ≠ p.source_id := by
    intro q hq
    rcases hu q hq with h | h
    · exact h
    · simp at h
  have hpsort : p ∈ List.insertionSort passageGe passages := by
    rw [hls]
    exact List.mem_append_right _ (List.mem_cons_self _ _)
  have hpmem : p ∈ passages := (List.mem_insertionSort _).mp hpsort
  have hsorted : List.Pairwise passageGe (List.insertionSort passageGe passages) :=
    List.sorted_insertionSort passageGe passages
  have hvle : ∀ y ∈ v, y.relevance_score ≤ p.relevance_score := by
    have hP := hsorted
    rw [hls, List.pairwise_append] at hP
    intro y hy
    exact (List.pairwise_cons.mp hP.2.1).1 y hy
  have hmax : ∀ q ∈ passages, q.source_id = p.source_id →
      q.relevance_score ≤ p.relevance_score := by
    intro q hq hqid
    have hqsort : q ∈ List.insertionSort passageGe passages :=
      (List.mem_insertionSort _).mpr hq
    rw [hls] at hqsort
    rcases List.mem_append.mp hqsort with h | h
    · exact absurd hqid (hufirst q h)
    · rcases List.mem_cons.mp h with h | h
      · rw [h]
      · exact hvle q h
  have hff1 : List.filter (fun q => decide (q.source_id = p.source_id))
        (List.filter (fun q => decide (q.relevance_score = p.relevance_score)) passages)
      = List.filter (fun q => decide (q.source_id = p.source_id)
          && decide (q.relevance_score = p.relevance_score)) passages :=
    List.filter_filter _ _
  have hff2 : List.filter (fun q => decide (q.source_id = p.source_id))
        (List.filter (fun q => decide (q.relevance_score = p.relevance_score))
          (List.insertionSort passageGe passages))
      = List.filter (fun q => decide (q.source_id = p.source_id)
          && decide (q.relevance_score = p.relevance_score))
          (List.insertionSort passageGe passages) :=
    List.filter_filter _ _
  have key : List.filter (fun q => decide (q.source_id = p.source_id)
        && decide (q.relevance_score = p.relevance_score)) passages
      = List.filter (fun q => decide (q.source_id = p.source_id)
          && decide (q.relevance_score = p.relevance_score))
          (List.insertionSort passageGe passages) := by
    rw [← hff1, ← hff2, filter_score_insertionSort]
  have hu0 : u.filter (fun q => decide (q.source_id = p.source_id)
      && decide (q.relevance_score = p.relevance_score)) = [] := by
    rw [List.filter_eq_nil_iff]
    intro q hq hpred
    simp only [Bool.and_eq_true, decide_eq_true_eq] at hpred
    exact hufirst q hq hpred.1
  have hhead : (passages.filter (fun q => decide (q.source_id = p.source_id)
      && decide (q.relevance_score = p.relevance_score))).head? = some p := by
    rw [key, hls, List.filter_append, hu0, List.nil_append,
      List.filter_cons_of_pos (by simp)]
    rfl
  exact ⟨p, hpmem, hdm, hmax, hhead, by rw [hdm]; rfl, by rw [hdm]; rfl,
    by rw [hdm]; rfl, by rw [hdm]; rfl⟩

/-- Two passages sharing source id "doc-1" with different scores, the
higher-scored one second in input order. -/
def passLow : SourcePassage :=
  { text := "low passage", source_id := "doc-1", source_title := some "T1",
    page_number := some 1, chunk_id := none, relevance_score := 1,
    landmark_id := none, metadata := [] }

def passHigh : SourcePassage :=
  { text := "high passage", source_id := "doc-1", source_title := some "T2",
    page_number := some 2, chunk_id := none, relevance_score := 2,
    landmark_id := none, metadata := [] }

/-- Witness for C10: with two passages sharing one id, the returned document is
built from the maximal-score one. -/
theorem C10_witness :
    ∃ p, p ∈ [passLow, passHigh] ∧ mkSourceDocument passHigh = mkSourceDocument p ∧
      (∀ q ∈ [passLow, passHigh], q.source_id = p.source_id →
        q.relevance_score ≤ p.relevance_score) ∧
      ([passLow, passHigh].filter (fun q => decide (q.source_id = p.source_id)
          && decide (q.relevance_score = p.relevance_score))).head? = some p ∧
      (mkSourceDocument passHigh).relevance_score = some p.relevance_score ∧
      (mkSourceDocument passHigh).title = p.source_title ∧
      (mkSourceDocument passHigh).page = p.page_number ∧
      (mkSourceDocument passHigh).content = p.text :=
  C10_theorem [passLow, passHigh] 5 (mkSourceDocument passHigh) (by decide)

/-! ### Landmark extraction (ResearchService._extract_landmarks_from_text) -/

/-- `re.findall` for the pattern `LP-` followed by exactly five digits: scan
left to right; at each position try to match the literal prefix and five
digits; on a match emit it and continue after it (matches do not overlap),
otherwise advance one character.  The digit class is modelled as ASCII digits. -/
def findallLpcFuel : Nat → List Char → List String
  | 0, _ => []
  | fuel + 1, 'L' :: 'P' :: '-' :: d1 :: d2 :: d3 :: d4 :: d5 :: rest =>
    if d1.isDigit && d2.isDigit && d3.isDigit && d4.isDigit && d5.isDigit then
      String.mk ['L', 'P', '-', d1, d2, d3, d4, d5] :: findallLpcFuel fuel rest
    else
      findallLpcFuel fuel ('P' :: '-' :: d1 :: d2 :: d3 :: d4 :: d5 :: rest)
  | fuel + 1, _ :: rest => findallLpcFuel fuel rest
  | _ + 1, [] => []

/-- Entry point of the scan.  The fuel (initially the text length) only drives
structural recursion and never runs out, since every step consumes at least one
character and starts with fuel at least the remaining length. -/
def findallLpc (l : List Char) : List String := findallLpcFuel l.length l

/-- The accumulation loop of `_extract_landmarks_from_text`:
`if lpc_id not in landmark_ids: landmark_ids.append(lpc_id)`. -/
def collectIds (acc : List String) : List String → List String
  | [] => acc
  | x :: xs => if x ∈ acc then collectIds acc xs else collectIds (acc ++ [x]) xs

/-- `ResearchService._extract_landmarks_from_text`: (names, ids); the names
list is the explicitly unimplemented placeholder and stays empty. -/
def _extract_landmarks_from_text (text : String) : List String × List String :=
  ([], collectIds [] (findallLpc text.data))

theorem collectIds_spec (l : List String) : ∀ acc, ∃ t, collectIds acc l = acc ++ t ∧
    List.Sublist t l ∧ (∀ x ∈ t, x ∉ acc) ∧ t.Nodup ∧
    (∀ x ∈ l, x ∈ acc ∨ x ∈ t) := by
  induction l with
  | nil =>
    intro acc
    exact ⟨[], by simp [collectIds], List.nil_sublist _, by simp, List.nodup_nil, by simp⟩
  | cons x xs ih =>
    intro acc
    by_cases hm : x ∈ acc
    · obtain ⟨t, h1, h2, h3, h4, h5⟩ := ih acc
      refine ⟨t, by rw [collectIds, if_pos hm]; exact h1, h2.cons _, h3, h4, ?_⟩
      intro y hy
      rcases List.mem_cons.mp hy with h | h
      · subst h; exact Or.inl hm
      · exact h5 y h
    · obtain ⟨t, h1, h2, h3, h4, h5⟩ := ih (acc ++ [x])
      refine ⟨x :: t, ?_, h2.cons₂ x, ?_, ?_, ?_⟩
      · rw [collectIds, if_neg hm, h1, List.append_assoc, List.singleton_append]
      · intro y hy
        rcases List.mem_cons.mp hy with h | h
        · subst h; exact hm
        · exact fun hacc => h3 y h (List.mem_append_left _ hacc)
      · rw [List.nodup_cons]
        exact ⟨fun hx => h3 x hx (List.mem_append_right _ (List.mem_cons_self _ _)), h4⟩
      · intro y hy
        rcases List.mem_cons.mp hy with h | h
        · subst h
          exact Or.inr (List.mem_cons_self _ _)
        · rcases h5 y h with h6 | h6
          · rcases List.mem_append.mp h6 with h7 | h7
            · exact Or.inl h7
            · rcases List.mem_cons.mp h7 with h8 | h8
              · subst h8; exact Or.inr (List.mem_cons_self _ _)
              · simp at h8
          · exact Or.inr (List.mem_cons_of_mem _ h6)

/-- The dedup loop preserves the order of first occurrences (strict version). -/
theorem collectIds_index_mono (l : List String) : ∀ acc (a b : String),
    a ∉ acc → b ∉ acc → a ∈ collectIds acc l → b ∈ collectIds acc l →
    l.indexOf a < l.indexOf b →
    (collectIds acc l).indexOf a < (collectIds acc l).indexOf b := by
  induction l with
  | nil =>
    intro acc a b hna hnb ha hb hord
    rw [collectIds] at ha
    exact absurd ha hna
  | cons x xs ih =>
    intro acc a b hna hnb ha hb hord
    by_cases hm : x ∈ acc
    · rw [collectIds, if_pos hm] at ha hb ⊢
      have hax : x ≠ a := fun hh => hna (hh ▸ hm)
      have hbx : x ≠ b := fun hh => hnb (hh ▸ hm)
      rw [List.indexOf_cons_ne _ hax, List.indexOf_cons_ne _ hbx] at hord
      exact ih acc a b hna hnb ha hb (Nat.lt_of_succ_lt_succ hord)
    · rw [collectIds, if_neg hm] at ha hb ⊢
      obtain ⟨t, h1, _, h3, _, _⟩ := collectIds_spec xs (acc ++ [x])
      by_cases hbx : b = x
      · subst hbx
        rw [List.indexOf_cons_self] at hord
        exact absurd hord (Nat.not_lt_zero _)
      · have hbmem : b ∈ t := by
          rw [h1] at hb
          rcases List.mem_append.mp hb with h | h
          · rcases List.mem_append.mp h with h7 | h7
            · exact absurd h7 hnb
            · rcases List.mem_cons.mp h7 with h8 | h8
              · exact absurd h8 hbx
              · simp at h8
          · exact h
        by_cases hax : a = x
        · subst hax
          rw [h1, List.append_assoc, List.singleton_append]
          rw [List.indexOf_append_of_not_mem hna,
            List.indexOf_append_of_not_mem hnb]
          have hne : a ≠ b := fun hh => hbx hh.symm
          rw [List.indexOf_cons_self, List.indexOf_cons_ne _ hne]
          omega
        · have hxa : x ≠ a := fun hh => hax hh.symm
          have hxb : x ≠ b := fun hh => hbx hh.symm
          rw [List.indexOf_cons_ne _ hxa, List.indexOf_cons_ne _ hxb] at hord
          exact ih (acc ++ [x]) a b
            (fun hh => (List.mem_append.mp hh).elim hna
              (fun h7 => hax (List.eq_of_mem_singleton h7)))
            (fun hh => (List.mem_append.mp hh).elim hnb
              (fun h7 => hbx (List.eq_of_mem_singleton h7)))
            ha hb (Nat.lt_of_succ_lt_succ hord)

/-- C6: landmark extraction is a deterministic function of the text; the names
list is always empty; the ids are exactly the distinct regex matches, each kept
once, ordered by first occurrence among the matches (and hence in the text). -/
theorem C6_theorem (text : String) :
    (_extract_landmarks_from_text text).1 = [] ∧
    _extract_landmarks_from_text text = _extract_landmarks_from_text text ∧
    (_extract_landmarks_from_text text).2.Nodup ∧
    List.Sublist (_extract_landmarks_from_text text).2 (findallLpc text.data) ∧
    (∀ a, a ∈ (_extract_landmarks_from_text text).2 ↔ a ∈ findallLpc text.data) ∧
    (∀ a b, a ∈ (_extract_landmarks_from_text text).2 →
      b ∈ (_extract_landmarks_from_text text).2 →
      ((_extract_landmarks_from_text text).2.indexOf a
          ≤ (_extract_landmarks_from_text text).2.indexOf b
        ↔ (findallLpc text.data).indexOf a ≤ (findallLpc text.data).indexOf b)) := by
  obtain ⟨t, h1, h2, _, h4, h5⟩ := collectIds_spec (findallLpc text.data) []
  rw [List.nil_append] at h1
  have hids : (_extract_landmarks_from_text text).2 = t := h1
  have hmem : ∀ a, a ∈ (_extract_landmarks_from_text text).2 ↔ a ∈ findallLpc text.data := by
    intro a
    rw [hids]
    constructor
    · exact fun h => h2.subset h
    · intro h
      rcases h5 a h with h6 | h6
      · simp at h6
      · exact h6
  have hmono : ∀ a b, a ∈ (_extract_landmarks_from_text text).2 →
      b ∈ (_extract_landmarks_from_text text).2 →
      (findallLpc text.data).indexOf a < (findallLpc text.data).indexOf b →
      (_extract_landmarks_from_text text).2.indexOf a
        < (_extract_landmarks_from_text text).2.indexOf b := by
    intro a b ha hb hord
    exact collectIds_index_mono (findallLpc text.data) [] a b (by simp) (by simp) ha hb hord
  refine ⟨rfl, rfl, hids ▸ h4, hids ▸ h2, hmem, ?_⟩
  intro a b ha hb
  by_cases hab : a = b
  · subst hab
    exact ⟨fun _ => le_refl _, fun _ => le_refl _⟩
  · have hams : a ∈ findallLpc text.data := (hmem a).mp ha
    have hbms : b ∈ findallLpc text.data := (hmem b).mp hb
    have hmsne : (findallLpc text.data).indexOf a ≠ (findallLpc text.data).indexOf b :=
      fun hh => hab ((List.indexOf_inj hams hbms).mp hh)
    have hidsne : (_extract_landmarks_from_text text).2.indexOf a
        ≠ (_extract_landmarks_from_text text).2.indexOf b :=
      fun hh => hab ((List.indexOf_inj ha hb).mp hh)
    constructor
    · intro hle
      by_contra hgt
      push_neg at hgt
      have := hmono b a hb ha hgt
      omega
    · intro hle
      have : (findallLpc text.data).indexOf a < (findallLpc text.data).indexOf b := by
        omega
      have := hmono a b ha hb this
      omega

/-- Concrete text for the C6 witness. -/
def textC6 : String := "See LP-00001 and LP-00002, then LP-00001 again."

/-- Witness for C6: the names list is empty, the id list is duplicate-free, and
the first-occurrence order of LP-00001 before LP-00002 is preserved. -/
theorem C6_witness :
    (_extract_landmarks_from_text textC6).1 = [] ∧
    (_extract_landmarks_from_text textC6).2.Nodup ∧
    ((_extract_landmarks_from_text textC6).2.indexOf "LP-00001"
        ≤ (_extract_landmarks_from_text textC6).2.indexOf "LP-00002"
      ↔ (findallLpc textC6.data).indexOf "LP-00001"
        ≤ (findallLpc textC6.data).indexOf "LP-00002") := by
  have h := C6_theorem textC6
  exact ⟨h.1, h.2.2.1, h.2.2.2.2.2 "LP-00001" "LP-00002" (by decide) (by decide)⟩

/-! ### Metadata Gateway (src/clients/landmark_metadata_client.py) -/

/-- Minimal canonical landmark record: the callers under study only consume the
id and the display name (`_convert_to_landmark_detail` fills every other field
with fixed defaults). -/
structure LandmarkDetail where
  lpc_id : String
  name : String
deriving DecidableEq

/-- What converting one non-empty payload to a `LandmarkDetail` does: succeed,
raise a pydantic `ValidationError`, or raise some other exception. -/
inductive ConvOutcome where
  | ok (d : LandmarkDetail)
  | validationError
  | unexpectedError
deriving DecidableEq

/-- Behaviour of the backend on one attempt of `get_landmark_by_id`: a
transport/connection error (`requests.RequestException`, which includes
`raise_for_status` on an HTTP error status such as 404), an empty JSON
payload, or a non-empty payload with the given conversion behaviour. -/
inductive AttemptOutcome where
  | transportError
  | emptyPayload
  | payload (conv : ConvOutcome)
deriving DecidableEq

/-- Observable result of `get_landmark_by_id`. -/
inductive FetchResult where
  | detail (d : LandmarkDetail)
  | noneResult
  | transportRaised
  | dataErrorRaised
deriving DecidableEq

/-- One attempt body of `get_landmark_by_id`: an empty payload returns `None`;
a `ValidationError` during conversion is caught and returns `None`; any other
conversion error is wrapped in `ValueError` (the data error); a transport error
propagates to the retry decorator. -/
def fetchAttemptBody : AttemptOutcome → FetchResult
  | .transportError => .transportRaised
  | .emptyPayload => .noneResult
  | .payload (.ok d) => .detail d
  | .payload .validationError => .noneResult
  | .payload .unexpectedError => .dataErrorRaised

/-- The tenacity retry loop (`stop_after_attempt(3)`, retry only on the
transport/connection classes, `reraise=True`).  The exponential backoff waits
(multiplier 1, min 2s, max 10s) only delay retries; wall-clock time is not
modelled. -/
def fetchRetry (backend : Nat → AttemptOutcome) : Nat → Nat → FetchResult
  | 0, _ => .transportRaised
  | remaining + 1, k =>
    match backend k with
    | .transportError =>
      if remaining = 0 then .transportRaised else fetchRetry backend remaining (k + 1)
    | out => fetchAttemptBody out

/-- `LandmarkMetadataClient.get_landmark_by_id`, as a function of the backend's
per-attempt behaviour. -/
def get_landmark_by_id (backend : Nat → AttemptOutcome) : FetchResult :=
  fetchRetry backend 3 0

theorem fetchRetry_step_ne (b : Nat → AttemptOutcome) (r k : Nat)
    (h : b k ≠ AttemptOutcome.transportError) :
    fetchRetry b (r + 1) k = fetchAttemptBody (b k) := by
  rw [fetchRetry]
  cases hb : b k with
  | transportError => exact absurd hb h
  | emptyPayload => rfl
  | payload conv => rfl

theorem fetchRetry_step_transport (b : Nat → AttemptOutcome) (r k : Nat)
    (h : b k = AttemptOutcome.transportError) (hr : r ≠ 0) :
    fetchRetry b (r + 1) k = fetchRetry b r (k + 1) := by
  rw [fetchRetry, h]
  exact if_neg hr

theorem fetchRetry_last_transport (b : Nat → AttemptOutcome) (k : Nat)
    (h : b k = AttemptOutcome.transportError) :
    fetchRetry b 1 k = FetchResult.transportRaised := by
  rw [fetchRetry, h]
  rfl

theorem fetchRetry_congr : ∀ (r k : Nat) (b1 b2 : Nat → AttemptOutcome),
    (∀ i, i < r → b2 (k + i) = b1 (k + i)) → fetchRetry b2 r k = fetchRetry b1 r k := by
  intro r
  induction r with
  | zero => intro k b1 b2 _; rfl
  | succ r ih =>
    intro k b1 b2 h
    have h0 : b2 k = b1 k := by
      have := h 0 (by omega)
      simpa using this
    rw [fetchRetry, fetchRetry, h0]
    cases b1 k with
    | transportError =>
      by_cases hr : r = 0
      · simp [hr]
      · rw [if_neg hr, if_neg hr]
        exact ih (k + 1) b1 b2 (fun i hi => by
          have := h (i + 1) (by omega)
          simpa [Nat.add_assoc, Nat.add_comm 1 i] using this)
    | emptyPayload => rfl
    | payload conv => rfl

/-- Backend whose non-empty payload fails conversion with a ValidationError. -/
def backendC9 : Nat → AttemptOutcome := fun _ => AttemptOutcome.payload ConvOutcome.validationError

/-- C9 counterexample: when conversion of a non-empty payload raises a pydantic
`ValidationError`, the source catches it and returns `None` — no data error is
raised, and the absent value is returned although the payload was non-empty and
the backend did not report not-found. -/
theorem C9_counterexample :
    get_landmark_by_id backendC9 = FetchResult.noneResult ∧
    get_landmark_by_id backendC9 ≠ FetchResult.dataErrorRaised := by
  decide

/-- C9 (amended): `get_landmark_by_id` consults at most the first 3 backend
attempts; it re-raises the transport error when all 3 attempts fail with
transport/connection errors (the backoff waits, base 2s cap 10s, only delay the
retries); otherwise the first non-transport attempt decides the result: `none`
exactly when the payload is empty or conversion raises a validation error, a
data error exactly when conversion raises a non-validation error, and the
converted detail on success. -/
theorem C9_theorem (backend : Nat → AttemptOutcome) :
    (∀ backend2 : Nat → AttemptOutcome, (∀ k, k < 3 → backend2 k = backend k) →
      get_landmark_by_id backend2 = get_landmark_by_id backend) ∧
    ((∀ k, k < 3 → backend k = AttemptOutcome.transportError) →
      get_landmark_by_id backend = FetchResult.transportRaised) ∧
    (∀ j, j < 3 → (∀ k, k < j → backend k = AttemptOutcome.transportError) →
      backend j ≠ AttemptOutcome.transportError →
      get_landmark_by_id backend = fetchAttemptBody (backend j) ∧
      (get_landmark_by_id backend = FetchResult.noneResult ↔
        (backend j = AttemptOutcome.emptyPayload ∨
         backend j = AttemptOutcome.payload ConvOutcome.validationError)) ∧
      (get_landmark_by_id backend = FetchResult.dataErrorRaised ↔
        backend j = AttemptOutcome.payload ConvOutcome.unexpectedError) ∧
      (∀ d, get_landmark_by_id backend = FetchResult.detail d ↔
        backend j = AttemptOutcome.payload (ConvOutcome.ok d))) := by
  refine ⟨?_, ?_, ?_⟩
  · intro b2 h
    exact fetchRetry_congr 3 0 backend b2 (fun i hi => by simpa using h i hi)
  · intro h
    unfold get_landmark_by_id
    rw [show (3 : Nat) = 2 + 1 from rfl,
      fetchRetry_step_transport backend 2 0 (h 0 (by omega)) (by omega),
      show (2 : Nat) = 1 + 1 from rfl,
      fetchRetry_step_transport backend 1 1 (h 1 (by omega)) (by omega),
      fetchRetry_last_transport backend 2 (h 2 (by omega))]
  · intro j hj hpre hne
    have hmain : get_landmark_by_id backend = fetchAttemptBody (backend j) := by
      unfold get_landmark_by_id
      have hj3 : j = 0 ∨ j = 1 ∨ j = 2 := by omega
      rcases hj3 with rfl | rfl | rfl
      · exact fetchRetry_step_ne backend 2 0 hne
      · rw [show (3 : Nat) = 2 + 1 from rfl,
          fetchRetry_step_transport backend 2 0 (hpre 0 (by omega)) (by omega)]
        exact fetchRetry_step_ne backend 1 1 hne
      · rw [show (3 : Nat) = 2 + 1 from rfl,
          fetchRetry_step_transport backend 2 0 (hpre 0 (by omega)) (by omega),
          show (2 : Nat) = 1 + 1 from rfl,
          fetchRetry_step_transport backend 1 1 (hpre 1 (by omega)) (by omega)]
        exact fetchRetry_step_ne backend 0 2 hne
    rw [hmain]
    cases hb : backend j with
    | transportError => exact absurd hb hne
    | emptyPayload => simp [fetchAttemptBody]
    | payload conv =>
      cases conv with
      | ok d => simp [fetchAttemptBody]
      | validationError => simp [fetchAttemptBody]
      | unexpectedError => simp [fetchAttemptBody]

/-- Backend failing all three attempts with transport errors. -/
def backendC9t : Nat → AttemptOutcome := fun _ => AttemptOutcome.transportError

/-- Backend with one transport failure, then a successful payload. -/
def backendC9w : Nat → AttemptOutcome := fun k =>
  if k = 0 then AttemptOutcome.transportError
  else AttemptOutcome.payload (ConvOutcome.ok ⟨"LP-00004", "Flatiron Building"⟩)

/-- Witness for C9: exhausted transport retries re-raise; a retry that then
succeeds yields the converted detail. -/
theorem C9_witness :
    get_landmark_by_id backendC9t = FetchResult.transportRaised ∧
    get_landmark_by_id backendC9w
      = FetchResult.detail ⟨"LP-00004", "Flatiron Building"⟩ := by
  constructor
  · exact (C9_theorem backendC9t).2.1 (fun k _ => rfl)
  · have h := ((C9_theorem backendC9w).2.2 1 (by omega)
      (fun k hk => by
        have hk0 : k = 0 := by omega
        subst hk0
        rfl)
      (by decide)).1
    rw [h]
    rfl

/-! ### Text Generation Gateway (src/clients/azure_openai_client.py) -/

/-- Behaviour of the completion backend on one attempt of `generate_text`: a
completion (an empty or malformed response already yields the empty string), a
transient error (`openai.APIError`/`APIConnectionError`/`RateLimitError`), or
any other exception (wrapped in `ValueError` and not retried). -/
inductive ApiOutcome where
  | ok (text : String)
  | transientError
  | otherError
deriving DecidableEq

/-- Observable outcome of `generate_text`. -/
inductive GenResult where
  | text (s : String)
  | apiErrorRaised
  | valueErrorRaised
deriving DecidableEq

/-- The tenacity retry loop of `generate_text` (3 attempts, retry only on the
transient classes, `reraise=True`; backoff multiplier 1, min 2s, max 10s, not
modelled as time). -/
def genRetry (backend : Nat → ApiOutcome) : Nat → Nat → GenResult
  | 0, _ => .apiErrorRaised
  | remaining + 1, k =>
    match backend k with
    | .ok t => .text t
    | .otherError => .valueErrorRaised
    | .transientError =>
      if remaining = 0 then .apiErrorRaised else genRetry backend remaining (k + 1)

/-- `AzureOpenAIClient.generate_text` as a function of the backend behaviour;
the prompt strings passed to it do not influence the modelled outcome. -/
def generate_text_result (backend : Nat → ApiOutcome) : GenResult :=
  genRetry backend 3 0

/-- `AzureOpenAIClient.generate_research_report`: its body catches every
exception escaping `generate_text` and returns the empty string ("to match
the function's return type"), so its own retry decorator never observes a
failure and the call always yields a string. -/
def generate_research_report_result (backend : Nat → ApiOutcome) : String :=
  match generate_text_result backend with
  | .text s => s
  | _ => ""

/-! ### Report Assembler (src/services/research_service.py) -/

/-- `LandmarkPhoto` as consumed by `_get_landmark_images`. -/
structure LandmarkPhoto where
  url : String
  title : Option String
  description : Option String
  year : Option Int
  source : Option String
  is_historical : Bool
deriving DecidableEq

/-- `LandmarkImage` from src/models/api_models.py. -/
structure LandmarkImage where
  url : String
  caption : Option String
  year : Option Int
  source : Option String
  is_historical : Bool
deriving DecidableEq

/-- Per-photo conversion inside `_get_landmark_images` (the caption is the
photo's description). -/
def photoToImage (p : LandmarkPhoto) : LandmarkImage :=
  { url := p.url, caption := p.description, year := p.year, source := p.source,
    is_historical := p.is_historical }

/-- `ResearchResponse` from src/models/api_models.py; related landmarks are
`{"id": ..., "name": ...}` pairs. -/
structure ResearchResponse where
  conversation_id : String
  query : String
  report : String
  timestamp : Int
  images : List LandmarkImage
  sources : List SourceDocument
  landmark_id : Option String
  landmark_name : Option String
  related_landmarks : List (String × String)
  suggested_queries : List String
deriving DecidableEq

/-- `ResearchContext` from src/models/research_models.py. -/
structure ResearchContext where
  query : String
  conversation_id : Option String
  landmark_id : Option String
  relevant_passages : List SourcePassage
  landmark_info : Option LandmarkDetail
  conversation_history : List (String × String)
  images : List LandmarkPhoto
deriving DecidableEq

/-- The collaborators of `ResearchService.generate_report`, at the boundaries
the source gives them:
* `genBackend` — the completion backend's behaviour per attempt;
* `passages` — the converted result of `_search_vectors` (that method catches
  every transport/conversion failure, so it is a total list, empty on failure);
* `landmarkDetail` — `LandmarkService.get_landmark_details`, which catches
  every exception and returns `None`;
* `photos` — `LandmarkService.get_landmark_photos`, total, `[]` on failure;
* `freshConversationId` — the uuid drawn by `create_conversation`. -/
structure World where
  genBackend : Nat → ApiOutcome
  passages : List SourcePassage
  landmarkDetail : String → Option LandmarkDetail
  photos : String → List LandmarkPhoto
  freshConversationId : String

/-- `ResearchService._initialize_conversation`.  Python's `if not
conversation_id:` treats the empty string like `None`. -/
def _initialize_conversation (w : World) (now : Int) (mem : MemoryService)
    (conversation_id : Option String) :
    MemoryService × String × List (String × String) :=
  match conversation_id with
  | some cid =>
    if cid = "" then
      let r := create_conversation w.freshConversationId now mem
      (r.1, r.2, ([] : List (String × String)))
    else
      let r := get_conversation_history now cid mem
      (r.1, cid, r.2)
  | none =>
    let r := create_conversation w.freshConversationId now mem
    (r.1, r.2, ([] : List (String × String)))

/-- `ResearchService._build_research_context` (the vector search is the
`passages` oracle; `if landmark_id:` is Python truthiness). -/
def _build_research_context (w : World) (query : String)
    (conversation_id : Option String) (landmark_id : Option String)
    (conversation_history : List (String × String)) : ResearchContext :=
  { query := query, conversation_id := conversation_id, landmark_id := landmark_id,
    relevant_passages := w.passages,
    landmark_info := match landmark_id with
      | some lid => if lid = "" then none else w.landmarkDetail lid
      | none => none,
    conversation_history := conversation_history, images := [] }

/-- Fixed error text of the `ValueError` raised by `_generate_research_text`. -/
def genFailMessage : String := "Failed to generate research report"

/-- `ResearchService._generate_research_text`: with a non-empty history it
calls `generate_text` (conversation template) and wraps any raised error into
a `ValueError`; with an empty history it calls `generate_research_report`
(first-turn template), which never raises. -/
def _generate_research_text (w : World) (context : ResearchContext) :
    Except String String :=
  if context.conversation_history ≠ [] then
    match generate_text_result w.genBackend with
    | .text s => .ok s
    | .apiErrorRaised => .error genFailMessage
    | .valueErrorRaised => .error genFailMessage
  else
    .ok (generate_research_report_result w.genBackend)

/-- `ResearchService._process_landmarks`: ensure the requested landmark id is
included, resolving its name best-effort. -/
def _process_landmarks (w : World) (landmark_id : Option String)
    (landmark_names landmark_ids : List String) : List String × List String :=
  match landmark_id with
  | some lid =>
    if lid ≠ "" ∧ lid ∉ landmark_ids then
      let landmark_ids1 := landmark_ids ++ [lid]
      match w.landmarkDetail lid with
      | some d =>
        if d.name ∉ landmark_names then (landmark_names ++ [d.name], landmark_ids1)
        else (landmark_names, landmark_ids1)
      | none => (landmark_names, landmark_ids1)
    else (landmark_names, landmark_ids)
  | none => (landmark_names, landmark_ids)

/-- `ResearchService._get_primary_landmark_name`. -/
def _get_primary_landmark_name (w : World) (landmark_id : Option String) :
    Option String :=
  match landmark_id with
  | some lid => if lid = "" then none else (w.landmarkDetail lid).map LandmarkDetail.name
  | none => none

/-- `ResearchService._get_related_landmarks`: up to 5 ids, skipping the
primary id and the ids whose details do not resolve. -/
def _get_related_landmarks (w : World) (landmark_ids : List String)
    (primary_landmark_id : Option String) : List (String × String) :=
  (landmark_ids.take 5).filterMap (fun lid =>
    if (match primary_landmark_id with
        | some l => lid != l
        | none => true) then
      (w.landmarkDetail lid).map (fun d => (lid, d.name))
    else none)

/-- `ResearchService._get_landmark_images` (per-item conversion failures in
the source are skipped; the oracle already returns convertible photos). -/
def _get_landmark_images (w : World) (landmark_id : String) : List LandmarkImage :=
  (w.photos landmark_id).map photoToImage

/-- `ResearchService._generate_suggested_queries`: the fixed 5-item pool,
truncated to 3, independent of the inputs. -/
def _generate_suggested_queries (original_query report_text : String) : List String :=
  ["What is the architectural style of this landmark?",
   "When was this landmark designated?",
   "Who was the architect of this landmark?",
   "What are some similar landmarks in New York City?",
   "What is the historical significance of this landmark?"].take 3

/-- `ResearchService.generate_report`: the full orchestration.  Every step
except text generation is total (each collaborator call catches its own
failures), so the only error path is the one through
`_generate_research_text`, re-wrapped by the surrounding `except` clause. -/
def generate_report (w : World) (now : Int) (mem : MemoryService) (query : String)
    (conversation_id : Option String) (landmark_id : Option String)
    (max_sources : Nat) (include_images : Bool) :
    MemoryService × Except String ResearchResponse :=
  let init := _initialize_conversation w now mem conversation_id
  let mem1 := init.1
  let conversation_id1 := init.2.1
  let conversation_history := init.2.2
  let context := _build_research_context w query (some conversation_id1) landmark_id
    conversation_history
  match _generate_research_text w context with
  | .error e => (mem1, .error ("Failed to generate research report: " ++ e))
  | .ok generated_text =>
    let extracted := _extract_landmarks_from_text generated_text
    let processed := _process_landmarks w landmark_id extracted.1 extracted.2
    let landmark_names := processed.1
    let landmark_ids := processed.2
    let images := if include_images then
        match landmark_ids with
        | [] => []
        | i :: _ =>
          let primary_landmark_id := match landmark_id with
            | some l => if l = "" then i else l
            | none => i
          _get_landmark_images w primary_landmark_id
      else []
    let sources := _prepare_sources context.relevant_passages max_sources
    let primary_landmark_name := _get_primary_landmark_name w landmark_id
    let related_landmarks := _get_related_landmarks w landmark_ids landmark_id
    let suggested_queries := _generate_suggested_queries query generated_text
    let response : ResearchResponse :=
      { conversation_id := conversation_id1, query := query, report := generated_text,
        timestamp := now, images := images, sources := sources,
        landmark_id := landmark_id, landmark_name := primary_landmark_name,
        related_landmarks := related_landmarks,
        suggested_queries := suggested_queries }
    let mem2 := (add_entry now conversation_id1 query generated_text landmark_ids
      landmark_names sources mem1).1
    (mem2, .ok response)

/-- World for C1: the completion backend raises a non-transient error on every
attempt, so text generation never succeeds. -/
def worldC1 : World :=
  { genBackend := fun _ => ApiOutcome.otherError, passages := [],
    landmarkDetail := fun _ => none, photos := fun _ => [],
    freshConversationId := "conv-1" }

/-- Fresh enabled store for C1. -/
def memC1 : MemoryService :=
  { conversations := [], ttl_seconds := 100, memory_enabled := true }

/-- C1 counterexample: on a first turn (empty history) the report call goes
through `generate_research_report`, whose body swallows the failure and
returns the empty string — `generate_report` succeeds with a degraded empty
report even though the text-generation call failed. -/
theorem C1_counterexample :
    (generate_report worldC1 0 memC1 "Tell me about NYC" none none 5 true).2
      = Except.ok
        { conversation_id := "conv-1", query := "Tell me about NYC", report := "",
          timestamp := 0, images := [], sources := [], landmark_id := none,
          landmark_name := none, related_landmarks := [],
          suggested_queries :=
            ["What is the architectural style of this landmark?",
             "When was this landmark designated?",
             "Who was the architect of this landmark?"] } ∧
    generate_text_result worldC1.genBackend = GenResult.valueErrorRaised :=
  ⟨rfl, rfl⟩

/-- C1 (amended): on a continuation turn (non-empty history) `generate_report`
fails with a client-visible error exactly when the text-generation call fails,
and succeeds with the generated text otherwise — the other sub-steps are total
and never abort.  On a first turn (empty history) a text-generation failure is
swallowed by `generate_research_report` and the request succeeds with an empty
report. -/
theorem C1_theorem (w : World) (now : Int) (mem : MemoryService) (query : String)
    (conversation_id landmark_id : Option String) (max_sources : Nat)
    (include_images : Bool) :
    ((_initialize_conversation w now mem conversation_id).2.2 = [] →
      ∃ r, (generate_report w now mem query conversation_id landmark_id max_sources
          include_images).2 = Except.ok r ∧
        r.report = generate_research_report_result w.genBackend) ∧
    (∀ s, (_initialize_conversation w now mem conversation_id).2.2 ≠ [] →
      generate_text_result w.genBackend = GenResult.text s →
      ∃ r, (generate_report w now mem query conversation_id landmark_id max_sources
          include_images).2 = Except.ok r ∧ r.report = s) ∧
    ((_initialize_conversation w now mem conversation_id).2.2 ≠ [] →
      (∀ s, generate_text_result w.genBackend ≠ GenResult.text s) →
      (generate_report w now mem query conversation_id landmark_id max_sources
          include_images).2
        = Except.error ("Failed to generate research report: " ++ genFailMessage)) := by
  refine ⟨?_, ?_, ?_⟩
  · intro hhist
    rcases hinit : _initialize_conversation w now mem conversation_id with ⟨mem1, cid1, hist⟩
    rw [hinit] at hhist
    have hh : hist = [] := hhist
    subst hh
    have hgen : _generate_research_text w (_build_research_context w query (some cid1)
        landmark_id []) = Except.ok (generate_research_report_result w.genBackend) := by
      simp [_generate_research_text, _build_research_context]
    simp only [generate_report, hinit]
    rw [hgen]
    exact ⟨_, rfl, rfl⟩
  · intro s hhist hg
    rcases hinit : _initialize_conversation w now mem conversation_id with ⟨mem1, cid1, hist⟩
    rw [hinit] at hhist
    have hh : hist ≠ [] := hhist
    have hgen : _generate_research_text w (_build_research_context w query (some cid1)
        landmark_id hist) = Except.ok s := by
      simp [_generate_research_text, _build_research_context, hh, hg]
    simp only [generate_report, hinit]
    rw [hgen]
    exact ⟨_, rfl, rfl⟩
  · intro hhist hnone
    rcases hinit : _initialize_conversation w now mem conversation_id with ⟨mem1, cid1, hist⟩
    rw [hinit] at hhist
    have hh : hist ≠ [] := hhist
    have hgen : _generate_research_text w (_build_research_context w query (some cid1)
        landmark_id hist) = Except.error genFailMessage := by
      cases hg : generate_text_result w.genBackend with
      | text s => exact absurd hg (hnone s)
      | apiErrorRaised => simp [_generate_research_text, _build_research_context, hh, hg]
      | valueErrorRaised => simp [_generate_research_text, _build_research_context, hh, hg]
    simp only [generate_report, hinit]
    rw [hgen]

/-- World whose backend succeeds with a fixed report text. -/
def worldC1ok : World :=
  { genBackend := fun _ => ApiOutcome.ok "REPORT", passages := [],
    landmarkDetail := fun _ => none, photos := fun _ => [],
    freshConversationId := "f" }

/-- A store holding one prior turn, to force the continuation template. -/
def convC1 : Conversation :=
  { id := "c", created_at := 0, updated_at := 0,
    entries := [{ conversation_id := "c", timestamp := 0, query := "q0",
                  response := "r0", landmark_ids := [], landmark_names := [],
                  sources_used := [] }],
    landmark_focus := none, metadata := [] }

def memC1w : MemoryService :=
  { conversations := [("c", convC1)], ttl_seconds := 100, memory_enabled := true }

/-- Witness for C1: a first turn succeeds with the degraded/ok report; a
continuation succeeds iff generation succeeds and fails otherwise. -/
theorem C1_witness :
    (∃ r, (generate_report worldC1ok 0 memC1 "query text" none none 5 true).2
        = Except.ok r ∧
      r.report = generate_research_report_result worldC1ok.genBackend) ∧
    (∃ r, (generate_report worldC1ok 1 memC1w "query text" (some "c") none 5 true).2
        = Except.ok r ∧ r.report = "REPORT") ∧
    ((generate_report worldC1 1 memC1w "query text" (some "c") none 5 true).2
      = Except.error ("Failed to generate research report: " ++ genFailMessage)) := by
  refine ⟨?_, ?_, ?_⟩
  · exact (C1_theorem worldC1ok 0 memC1 "query text" none none 5 true).1 rfl
  · exact (C1_theorem worldC1ok 1 memC1w "query text" (some "c") none 5 true).2.1
      "REPORT" (by decide) rfl
  · exact (C1_theorem worldC1 1 memC1w "query text" (some "c") none 5 true).2.2
      (by decide)
      (fun s h => by
        rw [show generate_text_result worldC1.genBackend
            = GenResult.valueErrorRaised from rfl] at h
        cases h)
